import Mathlib

/-!
Verification of the session client library core (Python sources) against its
natural-language specification.  Shallow embedding: each Python function that
the claims mention is translated into an executable Lean definition; bytes are
modelled as lists of naturals, library crypto primitives (libsodium / PyNaCl)
are modelled as an abstract structure of functions, and stateful methods are
modelled as explicit state-passing functions.
-/

set_option maxHeartbeats 1000000
set_option maxRecDepth 4000

/-! ## Bytes and small codec helpers -/

/-- Byte strings are lists of naturals (each entry a byte value). -/
abbrev Bytes := List Nat

deriving instance DecidableEq for Except

/-- Module constant from session_py_client/crypto/message_padding.py. -/
def PADDING_BYTE : Nat := 0

/-! ## Scheme-B message padding
Source: src/session_py_client/crypto/message_padding.py. -/

/-- Loop of remove_message_padding: the Python code scans indices from the
end; here the scan walks the reversed list, and when the reversed suffix still
to scan is v :: rest, v sits at index rest.length of the original list. -/
def removePadLoop (p : Bytes) : List Nat → Except String Bytes
  | [] => .error "Invalid padding"
  | v :: rest =>
    if v = 128 then .ok (p.take rest.length)
    else if v ≠ PADDING_BYTE then .ok p
    else removePadLoop p rest

/-- remove_message_padding from message_padding.py: scan from the end; on the
first byte equal to 0x80 truncate there; on any other non-zero byte return the
input unchanged; if everything is zero raise ValueError. -/
def remove_message_padding (padded_plaintext : Bytes) : Except String Bytes :=
  removePadLoop padded_plaintext padded_plaintext.reverse

/-- get_padded_message_length from message_padding.py. -/
def _get_padded_message_length (original_length : Nat) : Nat :=
  let message_length_with_terminator := original_length + 1
  let base_count := message_length_with_terminator / 160
  let message_part_count :=
    if message_length_with_terminator % 160 ≠ 0 then base_count + 1 else base_count
  message_part_count * 160

/-- Python bytearray slice assignment plaintext[: m.length] = m (the buffer is
at least as long as m in every use; if m were longer the slice assignment
would grow the buffer, which the append-then-drop form also models). -/
def spliceFront (buf m : Bytes) : Bytes := m ++ buf.drop m.length

/-- add_message_padding from message_padding.py: allocate a zero buffer of
length get_padded_message_length(len(m) + 1) - 1, copy the message into its
front, and write 0x80 at index len(m). -/
def add_message_padding (message : Bytes) : Bytes :=
  let padded_len := _get_padded_message_length (message.length + 1) - 1
  let plaintext := List.replicate padded_len 0
  let plaintext := spliceFront plaintext message
  plaintext.set message.length 128

/-! ### Padding lemmas -/

/-- get_padded_message_length is a positive multiple of 160 at least as large
as its argument plus one. -/
theorem get_padded_spec (n : Nat) :
    ∃ c, 1 ≤ c ∧ _get_padded_message_length n = c * 160 ∧
      n + 1 ≤ _get_padded_message_length n := by
  have h2 : 160 * ((n + 1) / 160) + (n + 1) % 160 = n + 1 := Nat.div_add_mod (n + 1) 160
  have h1 : (n + 1) % 160 < 160 := Nat.mod_lt _ (by omega)
  simp only [_get_padded_message_length]
  by_cases h : (n + 1) % 160 = 0
  · rw [if_neg (by omega)]
    exact ⟨(n + 1) / 160, by omega, rfl, by omega⟩
  · rw [if_pos h]
    exact ⟨(n + 1) / 160 + 1, by omega, rfl, by omega⟩

theorem get_padded_ge (n : Nat) : n + 1 ≤ _get_padded_message_length n := by
  obtain ⟨c, _, _, h⟩ := get_padded_spec n
  exact h

/-- The buffer allocated by add_message_padding is long enough for the message
plus its 0x80 terminator. -/
theorem padded_len_ge (L : Nat) :
    L + 1 ≤ _get_padded_message_length (L + 1) - 1 := by
  have := get_padded_ge (L + 1)
  omega

theorem list_set_append_length {α : Type} (m l : List α) (v : α) :
    (m ++ l).set m.length v = m ++ l.set 0 v := by
  induction m with
  | nil => rfl
  | cons a t ih => simp [List.set, ih]

/-- Structural form of add_message_padding: the message, the 0x80 terminator,
then zeros. -/
theorem add_message_padding_eq (m : Bytes) :
    add_message_padding m =
      m ++ 128 :: List.replicate (_get_padded_message_length (m.length + 1) - 1 - m.length - 1) 0 := by
  have hge : m.length + 1 ≤ _get_padded_message_length (m.length + 1) - 1 :=
    padded_len_ge m.length
  simp only [add_message_padding, spliceFront]
  rw [List.drop_replicate, list_set_append_length]
  set P := _get_padded_message_length (m.length + 1) - 1 with hP
  have hrep : P - m.length = (P - m.length - 1) + 1 := by omega
  rw [hrep, List.replicate_succ, List.set_cons_zero]
  simp

theorem removePadLoop_skip_zeros (p : Bytes) (z : Nat) (l : List Nat) :
    removePadLoop p (List.replicate z 0 ++ l) = removePadLoop p l := by
  induction z with
  | zero => rfl
  | succ k ih => simpa [List.replicate_succ, removePadLoop, PADDING_BYTE] using ih

/-- C4: for every byte string m of length at most 10 MiB, removing scheme-B
padding from the scheme-B padded form of m yields exactly m, i.e.
remove_message_padding (add_message_padding m) = m. -/
theorem c4_padding_roundtrip (m : Bytes) (h : m.length ≤ 10 * 1024 * 1024) :
    remove_message_padding (add_message_padding m) = .ok m := by
  clear h
  rw [add_message_padding_eq]
  unfold remove_message_padding
  rw [List.reverse_append, List.reverse_cons, List.reverse_replicate,
    List.append_assoc, removePadLoop_skip_zeros]
  simp only [removePadLoop, if_pos rfl, List.append_eq, List.nil_append,
    List.length_reverse, List.take_left]
  simp

/-- C4 witness: the roundtrip holds at the concrete message [1, 2, 3]. -/
theorem c4_padding_roundtrip_witness :
    remove_message_padding (add_message_padding [1, 2, 3]) = .ok [1, 2, 3] :=
  c4_padding_roundtrip [1, 2, 3] (by decide)

/-- C5 counterexample: padding the empty message yields 159 bytes, whose
length is not a multiple of 160, refuting the claim that the padded length is
always a multiple of 160. -/
theorem c5_counterexample :
    (add_message_padding []).length = 159 ∧
      ¬ (add_message_padding []).length % 160 = 0 := by
  constructor
  · decide
  · decide

/-- C5 amended: the length of the scheme-B padded message is one byte short
of a multiple of 160 (congruent to 159 mod 160); 0x80 is appended at index
len(m), then zero bytes fill the remainder. -/
theorem c5_amended (m : Bytes) :
    (add_message_padding m).length % 160 = 159 ∧
      add_message_padding m =
        m ++ 128 :: List.replicate ((add_message_padding m).length - m.length - 1) 0 := by
  have hshape := add_message_padding_eq m
  have hge : m.length + 1 ≤ _get_padded_message_length (m.length + 1) - 1 :=
    padded_len_ge m.length
  have hlen : (add_message_padding m).length
      = _get_padded_message_length (m.length + 1) - 1 := by
    rw [hshape]
    simp only [List.length_append, List.length_cons, List.length_replicate]
    omega
  constructor
  · rw [hlen]
    obtain ⟨c, hc1, hcm, hcge⟩ := get_padded_spec (m.length + 1)
    omega
  · rw [hlen, hshape]


/-! ## Codec helpers
Sources: src/session_py_client/utils.py and src/session_py/utils.py. -/

/-- Lowercase hex digit for a value below 16. -/
def hexDigitChar (n : Nat) : Char :=
  if n < 10 then Char.ofNat (48 + n) else Char.ofNat (87 + n)

/-- Two lowercase hex digits of a byte, as Python bytes.hex does per byte. -/
def byteToHex (b : Nat) : List Char := [hexDigitChar (b / 16 % 16), hexDigitChar (b % 16)]

/-- bytes.hex / Uint8ArrayToHex / bytes_to_hex: lowercase hex of a byte string. -/
def bytesToHex (bs : Bytes) : String := String.mk (bs.foldr (fun b acc => byteToHex b ++ acc) [])

/-- Value of one hex digit character, if it is one. -/
def hexVal (c : Char) : Option Nat :=
  if 48 ≤ c.toNat ∧ c.toNat ≤ 57 then some (c.toNat - 48)
  else if 97 ≤ c.toNat ∧ c.toNat ≤ 102 then some (c.toNat - 87)
  else if 65 ≤ c.toNat ∧ c.toNat ≤ 70 then some (c.toNat - 55)
  else none

/-- Loop of hexToUint8Array from session_py_client/utils.py: parse hex pairs
left to right, stopping silently at the first pair that fails to parse; a
trailing odd character is ignored because the Python loop runs len // 2
times. -/
def hexPairsLoop : List Char → Bytes
  | c1 :: c2 :: rest =>
    match hexVal c1, hexVal c2 with
    | some v1, some v2 => (16 * v1 + v2) :: hexPairsLoop rest
    | _, _ => []
  | _ => []

/-- hexToUint8Array from session_py_client/utils.py. -/
def hexToUint8Array (s : String) : Bytes :=
  if s = "" then [] else hexPairsLoop s.data

/-- Strict hex parse, as Python bytes.fromhex: every character must be a hex
digit and the length must be even, else ValueError (modelled as none). -/
def bytesFromHex : List Char → Option Bytes
  | [] => some []
  | c1 :: c2 :: rest =>
    match hexVal c1, hexVal c2, bytesFromHex rest with
    | some v1, some v2, some r => some ((16 * v1 + v2) :: r)
    | _, _, _ => none
  | _ => none

/-- removePrefixIfNeeded (string form): drop a leading "05". -/
def removePrefixIfNeededStr (s : String) : String :=
  if s.startsWith "05" then s.drop 2 else s

/-- removePrefixIfNeeded (bytes form): drop a leading 0x05 byte. -/
def removePrefixIfNeededBytes (b : Bytes) : Bytes :=
  match b with
  | 5 :: rest => rest
  | _ => b

/-- UTF-8 encoding of one code point. -/
def utf8Char (c : Char) : Bytes :=
  let n := c.toNat
  if n < 0x80 then [n]
  else if n < 0x800 then [0xC0 + n / 64, 0x80 + n % 64]
  else if n < 0x10000 then [0xE0 + n / 4096, 0x80 + (n / 64) % 64, 0x80 + n % 64]
  else [0xF0 + n / 262144, 0x80 + (n / 4096) % 64, 0x80 + (n / 64) % 64, 0x80 + n % 64]

/-- str.encode, the UTF-8 bytes of a string. -/
def strBytes (s : String) : Bytes := s.data.foldr (fun c acc => utf8Char c ++ acc) []

/-- Python str.strip with no argument: remove leading and trailing
whitespace. -/
def pyStrip (s : String) : String :=
  String.mk (((s.data.dropWhile Char.isWhitespace).reverse.dropWhile
    Char.isWhitespace).reverse)

/-- Split at every single space character, keeping empty pieces, as Python
str.split with a one-space separator does. -/
def splitOnSpaceAux : List Char → List Char → List String
  | [], acc => [String.mk acc.reverse]
  | c :: rest, acc =>
    if c = Char.ofNat 32 then String.mk acc.reverse :: splitOnSpaceAux rest []
    else splitOnSpaceAux rest (c :: acc)

def pySplitSpace (s : String) : List String := splitOnSpaceAux s.data []

/-- Split at every whitespace character. -/
def splitOnWsAux : List Char → List Char → List String
  | [], acc => [String.mk acc.reverse]
  | c :: rest, acc =>
    if c.isWhitespace then String.mk acc.reverse :: splitOnWsAux rest []
    else splitOnWsAux rest (c :: acc)

/-- Python str.split with no argument: split on whitespace runs, discarding
empty pieces. -/
def pySplitWhitespace (s : String) : List String :=
  (splitOnWsAux s.data []).filter (fun w => w ≠ "")

/-- Python string slicing s[:n] by code points. -/
def strTake (s : String) (n : Nat) : String := String.mk (s.data.take n)

/-- One base64 alphabet character. -/
def base64Char (n : Nat) : Char :=
  if n < 26 then Char.ofNat (65 + n)
  else if n < 52 then Char.ofNat (97 + (n - 26))
  else if n < 62 then Char.ofNat (48 + (n - 52))
  else if n = 62 then Char.ofNat 43
  else Char.ofNat 47

/-- Standard base64 encoding of three-byte groups, with = padding (61 is the
code of the padding character). -/
def base64Chunks : Bytes → List Char
  | [] => []
  | [b1] => [base64Char (b1 / 4 % 64), base64Char (b1 % 4 * 16), Char.ofNat 61, Char.ofNat 61]
  | [b1, b2] => [base64Char (b1 / 4 % 64), base64Char (b1 % 4 * 16 + b2 / 16),
      base64Char (b2 % 16 * 4), Char.ofNat 61]
  | b1 :: b2 :: b3 :: rest =>
    base64Char (b1 / 4 % 64) :: base64Char (b1 % 4 * 16 + b2 / 16) ::
      base64Char (b2 % 16 * 4 + b3 / 64) :: base64Char (b3 % 64) :: base64Chunks rest

/-- base64.b64encode as a string. -/
def base64Encode (bs : Bytes) : String := String.mk (base64Chunks bs)

/-! ## Abstract model of the libsodium / PyNaCl primitives
The repository calls these through the nacl package; they are opaque
cryptographic functions, modelled as a structure of functions together with
the length facts the embedding relies on (libsodium guarantees them). The
crypto_sign secret key produced by crypto_sign_seed_keypair is the 32-byte
seed followed by the 32-byte public key, which is how libsodium lays it
out. -/

structure NaCl where
  signPubOfSeed : Bytes → Bytes
  sha512 : Bytes → Bytes
  scalarmultBase : Bytes → Bytes
  edPkToCurve : Bytes → Bytes
  edSkToCurve : Bytes → Bytes
  signDetached : Bytes → Bytes → Bytes
  verifyDetached : Bytes → Bytes → Bytes → Bool
  boxSeal : Bytes → Bytes → Bytes
  boxSealOpen : Bytes → Bytes → Bytes → Option Bytes
  signPub_length : ∀ s, (signPubOfSeed s).length = 32
  sha512_length : ∀ b, (sha512 b).length = 64
  signDetached_length : ∀ k m, (signDetached k m).length = 64

/-! ## session_py_client crypto types and encryption
Source: src/session_py_client/crypto/message_encrypt.py. -/

namespace Client

structure SodiumKeyPair where
  publicKey : Bytes
  privateKey : Bytes
deriving DecidableEq

structure Keypair where
  x25519 : SodiumKeyPair
  ed25519 : SodiumKeyPair
deriving DecidableEq

inductive EnvelopeType where
  | SESSION_MESSAGE
  | CLOSED_GROUP_MESSAGE
deriving DecidableEq

/-- Wire integer of the envelope type (IntEnum values in the source). -/
def EnvelopeType.toWire : EnvelopeType → Nat
  | .SESSION_MESSAGE => 6
  | .CLOSED_GROUP_MESSAGE => 7

/-- get_keypair_from_seed: right-pad the hex seed with 0 characters to 64 hex
digits and slice, parse it (bytes.fromhex, strict), derive the Ed25519 pair
with crypto_sign_seed_keypair, and convert to X25519; the X25519 public key
is stored with a 0x05 prefix byte prepended. -/
def get_keypair_from_seed (M : NaCl) (seed_hex : String) : Option Keypair :=
  let chars := seed_hex.data
  let chars := if chars.length ≠ 64
    then (chars ++ List.replicate 32 (Char.ofNat 48)).take 64 else chars
  match bytesFromHex chars with
  | none => none
  | some seed =>
    let pk := M.signPubOfSeed seed
    let sk := seed ++ pk
    let x_public := M.edPkToCurve pk
    let prepended_x_public := 5 :: x_public
    let x_secret := M.edSkToCurve sk
    some { x25519 := { publicKey := prepended_x_public, privateKey := x_secret },
           ed25519 := { publicKey := pk, privateKey := sk } }

/-- Low level Session encryption, _encrypt_using_session_protocol.  The
source builds signing.SigningKey(ed_priv) to sign; the PyNaCl SigningKey
constructor accepts exactly a 32-byte seed and raises ValueError otherwise,
modelled by the length guard. -/
def _encrypt_using_session_protocol (M : NaCl) (sender_keypair : Keypair)
    (recipient : String) (plaintext : Bytes) : Except String Bytes :=
  let ed_priv := sender_keypair.ed25519.privateKey
  let ed_pub := sender_keypair.ed25519.publicKey
  if ed_priv.isEmpty ∨ ed_pub.isEmpty then .error "Missing Ed25519 keypair"
  else
    let recipient_pub := hexToUint8Array (removePrefixIfNeededStr recipient)
    if ed_priv.length ≠ 32 then .error "The seed must be exactly 32 bytes long"
    else
      let verification_data := plaintext ++ ed_pub ++ recipient_pub
      let signature := M.signDetached ed_priv verification_data
      let plaintext_with_meta := plaintext ++ ed_pub ++ signature
      .ok (M.boxSeal plaintext_with_meta recipient_pub)

/-- encrypt from message_encrypt.py: the envelope-type membership check in
the source always passes because the enum has exactly the two accepted
values; then pad and run the Session protocol. -/
def encrypt (M : NaCl) (sender_keypair : Keypair) (recipient : String)
    (plain_text_buffer : Bytes) (encryption_type : EnvelopeType) :
    Except String (EnvelopeType × Bytes) :=
  let padded := add_message_padding plain_text_buffer
  (_encrypt_using_session_protocol M sender_keypair recipient padded).map
    (fun cipher_text => (encryption_type, cipher_text))

end Client

/-! ### C1: the one-to-one roundtrip claim against the code -/

theorem bytesFromHex_length :
    ∀ (cs : List Char) (bs : Bytes), bytesFromHex cs = some bs →
      cs.length = 2 * bs.length
  | [], bs, h => by
    simp only [bytesFromHex, Option.some.injEq] at h
    subst h
    rfl
  | [c], bs, h => by
    simp [bytesFromHex] at h
  | c1 :: c2 :: rest, bs, h => by
    simp only [bytesFromHex] at h
    cases h1 : hexVal c1 <;> rw [h1] at h
    · simp at h
    cases h2 : hexVal c2 <;> rw [h2] at h
    · simp at h
    cases h3 : bytesFromHex rest <;> rw [h3] at h
    · simp at h
    case some.some.some v1 v2 r =>
      simp only [Option.some.injEq] at h
      subst h
      have := bytesFromHex_length rest r h3
      simp only [List.length_cons]
      omega

/-- C1: the claim asserts the encrypt/decrypt roundtrip for keypairs derived
from seeds, but for every keypair produced by get_keypair_from_seed the
ed25519 private key is the 64-byte libsodium secret key (seed plus public
key), and signing.SigningKey inside _encrypt_using_session_protocol only
accepts a 32-byte seed, so encrypt raises ValueError before producing any
ciphertext: the roundtrip never even starts. -/
theorem c1_seed_keypair_encrypt_raises (M : NaCl) (seed_hex recipient : String)
    (p : Bytes) (S : Client.Keypair)
    (hS : Client.get_keypair_from_seed M seed_hex = some S) :
    Client.encrypt M S recipient p .SESSION_MESSAGE
      = .error "The seed must be exactly 32 bytes long" := by
  simp only [Client.get_keypair_from_seed] at hS
  set chars := (if seed_hex.data.length ≠ 64
    then (seed_hex.data ++ List.replicate 32 (Char.ofNat 48)).take 64
    else seed_hex.data) with hchars
  cases hparse : bytesFromHex chars with
  | none => rw [hparse] at hS; exact absurd hS (by simp)
  | some seed =>
    rw [hparse] at hS
    simp only [Option.some.injEq] at hS
    have hchars_len : 2 ≤ chars.length := by
      rw [hchars]
      split
      · simp only [List.length_take, List.length_append, List.length_replicate]
        omega
      · omega
    have hseed_len : 1 ≤ seed.length := by
      have := bytesFromHex_length chars seed hparse
      omega
    have hpk_len : (M.signPubOfSeed seed).length = 32 := M.signPub_length seed
    subst hS
    simp only [Client.encrypt, Client._encrypt_using_session_protocol]
    rw [if_neg, if_pos]
    · rfl
    · simp only [List.length_append]
      omega
    · simp only [List.isEmpty_iff, not_or]
      constructor
      · intro hcon
        have := congrArg List.length hcon
        simp only [List.length_append, List.length_nil] at this
        omega
      · intro hcon
        rw [hcon] at hpk_len
        simp at hpk_len

/-- Toy instance of the primitive-function model, used to evaluate witnesses
on concrete inputs. -/
def toyNaCl : NaCl where
  signPubOfSeed := fun _ => List.replicate 32 7
  sha512 := fun _ => List.replicate 64 1
  scalarmultBase := fun _ => List.replicate 32 9
  edPkToCurve := fun b => b
  edSkToCurve := fun b => b.take 32
  signDetached := fun _ _ => List.replicate 64 3
  verifyDetached := fun _ _ _ => true
  boxSeal := fun m _ => m
  boxSealOpen := fun c _ _ => some c
  signPub_length := fun _ => by simp
  sha512_length := fun _ => by simp
  signDetached_length := fun _ _ => by simp

/-- The keypair get_keypair_from_seed produces from the hex seed "00" under
the toy primitive model: the padded seed parses to 17 zero bytes. -/
def c1SeedKeypair : Client.Keypair :=
  { x25519 := { publicKey := 5 :: List.replicate 32 7,
                privateKey := (List.replicate 17 0 ++ List.replicate 32 7).take 32 },
    ed25519 := { publicKey := List.replicate 32 7,
                 privateKey := List.replicate 17 0 ++ List.replicate 32 7 } }

/-- C1 witness: at the concrete seed "00" the derived keypair makes encrypt
raise instead of encrypting. -/
theorem c1_seed_keypair_encrypt_raises_witness :
    Client.encrypt toyNaCl c1SeedKeypair "05ab" [1, 2] .SESSION_MESSAGE
      = .error "The seed must be exactly 32 bytes long" :=
  c1_seed_keypair_encrypt_raises toyNaCl "00" "05ab" [1, 2] c1SeedKeypair (by decide)

/-! ## session_py keypair and request signing
Sources: src/session_py/crypto/keypair.py and src/session_py/crypto/signature.py. -/

namespace Core

structure SigningKeypair where
  pub_key : Bytes
  priv_key : Bytes
deriving DecidableEq

structure BoxKeypair where
  pub_key : Bytes
  priv_key : Bytes
deriving DecidableEq

structure Keypair where
  ed25519 : SigningKeypair
  x25519 : BoxKeypair
deriving DecidableEq

/-- Return value of sign_request. -/
structure SignatureParams where
  signature : String
  pubkeyEd25519 : String
deriving DecidableEq

/-- sign_request from signature.py: build SigningKey from the ed25519 private
key (PyNaCl requires a 32-byte seed there), format the message as
method+timestamp when the namespace is 0 and method+namespace+timestamp
otherwise, sign it, and return the base64 signature with the hex public
key. -/
def sign_request (M : NaCl) (keypair : Keypair) (method : String)
    (namespace_ : Int) (timestamp : Int) : Except String SignatureParams :=
  if keypair.ed25519.priv_key.length ≠ 32 then
    .error "The seed must be exactly 32 bytes long"
  else
    let message_str :=
      if namespace_ = 0 then method ++ toString timestamp
      else method ++ toString namespace_ ++ toString timestamp
    let message := strBytes message_str
    let signature := base64Encode (M.signDetached keypair.ed25519.priv_key message)
    .ok { signature := signature,
          pubkeyEd25519 := bytesToHex keypair.ed25519.pub_key }

end Core

/-- Message the spec says is signed for a snode retrieve: the ASCII string
method, optionally followed by the namespace (omitted iff it is 0), followed
by the timestamp. -/
def retrieveSignedMessage (method : String) (namespace_ timestamp : Int) : String :=
  method ++ (if namespace_ = 0 then "" else toString namespace_) ++ toString timestamp

/-- C8: sign_request signs exactly the ASCII concatenation of method and
timestamp when the namespace is 0 and of method, namespace and timestamp
otherwise, and returns the base64 Ed25519 signature of that byte string
together with the hex of the Ed25519 public key. -/
theorem c8_sign_request (M : NaCl) (kp : Core.Keypair) (method : String)
    (namespace_ timestamp : Int) (h : kp.ed25519.priv_key.length = 32) :
    Core.sign_request M kp method namespace_ timestamp
      = .ok { signature := base64Encode (M.signDetached kp.ed25519.priv_key
                (strBytes (retrieveSignedMessage method namespace_ timestamp))),
              pubkeyEd25519 := bytesToHex kp.ed25519.pub_key } := by
  simp only [Core.sign_request, retrieveSignedMessage]
  rw [if_neg (by omega)]
  by_cases hn : namespace_ = 0
  · rw [if_pos hn, if_pos hn, String.append_empty]
  · rw [if_neg hn, if_neg hn, String.append_assoc]

/-- C8 witness: the signature parameters at a concrete keypair, method,
namespace and timestamp. -/
theorem c8_sign_request_witness :
    Core.sign_request toyNaCl
        { ed25519 := { pub_key := [171, 205], priv_key := List.replicate 32 4 },
          x25519 := { pub_key := [], priv_key := [] } }
        "retrieve" 2 1752459333155
      = .ok { signature := base64Encode (toyNaCl.signDetached (List.replicate 32 4)
                (strBytes (retrieveSignedMessage "retrieve" 2 1752459333155))),
              pubkeyEd25519 := bytesToHex [171, 205] } :=
  c8_sign_request toyNaCl
    { ed25519 := { pub_key := [171, 205], priv_key := List.replicate 32 4 },
      x25519 := { pub_key := [], priv_key := [] } }
    "retrieve" 2 1752459333155 (by decide)

/-! ## Error taxonomy
Source: src/session_py/errors.py, plus plain Python ValueError / IndexError
raised by library calls (modelled with a message). -/

inductive RuntimeErrorCode where
  | NETWORK_NOT_PROVIDED
  | EMPTY_USER
  | ALREADY_INITIALIZED
deriving DecidableEq

inductive ValidationErrorCode where
  | INVALID_OPTIONS
  | INVALID_MNEMONIC
  | INVALID_SESSION_ID
  | INVALID_ATTACHMENT
deriving DecidableEq

inductive FetchErrorCode where
  | SNODE_ERROR
  | TIMEOUT
  | UNKNOWN
deriving DecidableEq

inductive SessErr where
  | valueError (msg : String)
  | runtimeError (code : RuntimeErrorCode)
  | validationError (code : ValidationErrorCode)
  | fetchError (code : FetchErrorCode)
deriving DecidableEq

/-! ## Mnemonic decoding and key derivation
Sources: src/session_py/crypto/mnemonic.py (decode_mnemonic, to_keypair,
mnemonic_to_seed) with the 1626-entry English word list passed in as data
(the list itself is a JSON asset, not source code). -/

namespace Core

/-- One round of the reflected CRC-32 bit loop (polynomial 0xEDB88320). -/
def crc32Round (c : Nat) : Nat :=
  if c % 2 = 1 then (c / 2) ^^^ 0xEDB88320 else c / 2

def crc32Rounds : Nat → Nat → Nat
  | 0, c => c
  | k + 1, c => crc32Rounds k (crc32Round c)

/-- binascii.crc32 of a byte string. -/
def crc32 (bs : Bytes) : Nat :=
  (bs.foldl (fun crc b => crc32Rounds 8 (crc ^^^ b % 256)) 0xFFFFFFFF) ^^^ 0xFFFFFFFF

/-- _get_checksum_index from mnemonic.py: crc32 of the concatenated 3-letter
prefixes, modulo the length of the given word list. -/
def _get_checksum_index (words : List String) : Nat :=
  let trimmed := String.join (words.map (fun w => strTake w 3))
  crc32 (strBytes trimmed) % words.length

/-- _swap_endian_4byte from mnemonic.py. -/
def _swap_endian_4byte (s : List Char) : Except SessErr (List Char) :=
  if s.length ≠ 8 then .error (.valueError "Invalid input length")
  else .ok (s.drop 6 ++ ((s.drop 4).take 2 ++ ((s.drop 2).take 2 ++ s.take 2)))

/-- Python format f x:08x — lowercase hex padded with zeros to at least 8
characters. -/
def format08x (x : Nat) : List Char :=
  let ds := Nat.toDigits 16 x
  List.replicate (8 - ds.length) (Char.ofNat 48) ++ ds

/-- Decoding loop of decode_mnemonic over three-word groups (with
_PREFIX_LEN = 3 the branch matching on word prefixes is taken; Python
list.index raises ValueError when the prefix is absent).  A leftover group of
one or two words raises IndexError in the Python subscript. -/
def decodeGroups (truncWords : List String) (n : Nat) : List String → Except SessErr Bytes
  | [] => .ok []
  | w1 :: w2 :: w3 :: rest => do
    let some w1i := truncWords.findIdx? (fun t => t = strTake w1 3)
      | .error (.valueError "is not in list")
    let some w2i := truncWords.findIdx? (fun t => t = strTake w2 3)
      | .error (.valueError "is not in list")
    let some w3i := truncWords.findIdx? (fun t => t = strTake w3 3)
      | .error (.valueError "is not in list")
    let x := w1i + n * ((n - w1i + w2i) % n) + n * n * ((n - w2i + w3i) % n)
    if x % n ≠ w1i then .error (.valueError "Could not decode mnemonic")
    else
      match _swap_endian_4byte (format08x x) with
      | .error e => .error e
      | .ok swapped =>
        match bytesFromHex swapped with
        | none => .error (.valueError "non-hexadecimal number found in fromhex")
        | some b4 =>
          match decodeGroups truncWords n rest with
          | .error e => .error e
          | .ok out => .ok (b4 ++ out)
  | _ => .error (.valueError "list index out of range")

/-- decode_mnemonic from mnemonic.py: split on whitespace, check the word
count, pop the 13th checksum word, decode each three-word group through the
prefix index arithmetic, and return the hex string of the seed bytes.  The
checksum comparison at the end deliberately ignores mismatches (the source
has a pass branch); its only observable effect is the list subscript
words[index], which can raise IndexError when the index (taken modulo the
number of mnemonic words) reaches past the word list. -/
def decode_mnemonic (words : List String) (mnemonic : String) : Except SessErr String := do
  let n := words.length
  let wlist := pySplitWhitespace mnemonic
  if wlist.length < 12 then .error (.valueError "Invalid number of words")
  else if wlist.length % 3 = 2 then .error (.valueError "Invalid number of words")
  else
    let checksum_word := if wlist.length = 13 then (wlist.getLast?.getD "") else ""
    let wlist := if wlist.length = 13 then wlist.dropLast else wlist
    let truncWords := words.map (fun w => strTake w 3)
    match decodeGroups truncWords n wlist with
    | .error e => .error e
    | .ok out =>
      if checksum_word ≠ "" then
        let index := _get_checksum_index wlist
        match words.get? index with
        | none => .error (.valueError "list index out of range")
        | some _expected => .ok (bytesToHex out)
      else .ok (bytesToHex out)

/-- mnemonic_to_seed from mnemonic.py: decode, right-pad the hex with zero
characters to 64 digits and slice, then bytes.fromhex. -/
def mnemonic_to_seed (words : List String) (mnemonic : String) : Except SessErr Bytes := do
  match decode_mnemonic words mnemonic with
  | .error e => .error e
  | .ok seed_hex =>
    let chars := seed_hex.data
    let chars := if chars.length ≠ 64
      then (chars ++ List.replicate 32 (Char.ofNat 48)).take 64 else chars
    match bytesFromHex chars with
    | none => .error (.valueError "non-hexadecimal number found in fromhex")
    | some b => .ok b

/-- Curve25519 private-key clamp from to_keypair: clear the low 3 bits of
byte 0, clear the top bit and set bit 6 of byte 31. -/
def clampBytes (b : Bytes) : Bytes :=
  let b := b.set 0 ((b.getD 0 0).land 248)
  b.set 31 (((b.getD 31 0).land 127).lor 64)

/-- to_keypair from mnemonic.py: SigningKey(seed) (whose constructor needs a
32-byte seed), then SHA-512 of the seed, clamp the first 32 bytes for the
X25519 private key, and scalarmult_base for its public key; PrivateKey also
checks the 32-byte length. -/
def to_keypair (M : NaCl) (seed : Bytes) : Except SessErr Keypair :=
  if seed.length ≠ 32 then .error (.valueError "The seed must be exactly 32 bytes long")
  else
    let h := M.sha512 seed
    let x25519_priv_key_bytes := clampBytes (h.take 32)
    if x25519_priv_key_bytes.length ≠ 32 then
      .error (.valueError "PrivateKey must be created from a 32 bytes long raw secret key")
    else
      .ok { ed25519 := { pub_key := M.signPubOfSeed seed, priv_key := seed },
            x25519 := { pub_key := M.scalarmultBase x25519_priv_key_bytes,
                        priv_key := x25519_priv_key_bytes } }

/-! ## Session state and set_mnemonic
Sources: src/session_py/instance/session.py (fields set in init) and
src/session_py/instance/get_set_mnemonic.py. -/

structure Snode where
  host : String
  port : Int
  pubkey_x25519 : String
  pubkey_ed25519 : String
deriving DecidableEq

structure Swarm where
  snodes : List Snode
deriving DecidableEq

/-- Mutable fields of the Session object that the embedded operations touch,
plus the key/value storage behind self.storage (InMemoryStorage, modelled as
an association list where the most recent binding wins). -/
structure SessionState where
  mnemonic : Option String
  keypair : Option Keypair
  session_id : Option String
  display_name : Option String
  avatar : Option String
  snodes : Option (List Snode)
  our_swarms : Option (List Swarm)
  our_swarm : Option Swarm
  is_authorized : Bool
  storage : List (String × String)
deriving DecidableEq

/-- storage.set on the in-memory key/value store. -/
def storageSet (st : List (String × String)) (k v : String) : List (String × String) :=
  (k, v) :: st

/-- storage.get on the in-memory key/value store. -/
def storageGet (st : List (String × String)) (k : String) : Option String :=
  (st.find? (fun p => p.1 = k)).map (fun p => p.2)

/-- set_mnemonic from get_set_mnemonic.py as a state transformer: the pair
returned is the Session state after the call together with the outcome; every
raise happens before any field assignment, so the error exits all carry the
input state unchanged. -/
def set_mnemonic (words : List String) (M : NaCl) (s : SessionState)
    (mnemonic : String) (display_name : Option String) :
    SessionState × Except SessErr Unit :=
  if s.is_authorized then
    (s, .error (.runtimeError .ALREADY_INITIALIZED))
  else
    let mnemonic := pyStrip mnemonic
    let words13 := pySplitSpace mnemonic
    if words13.length ≠ 13 then
      (s, .error (.validationError .INVALID_MNEMONIC))
    else
      match mnemonic_to_seed words mnemonic with
      | .error e => (s, .error e)
      | .ok seed =>
        match to_keypair M seed with
        | .error e => (s, .error e)
        | .ok kp =>
          let s := { s with keypair := some kp,
                            session_id := some ("05" ++ bytesToHex kp.x25519.pub_key),
                            mnemonic := some mnemonic }
          let s := match display_name with
            | some dn => { s with display_name := some dn }
            | none => s
          let s := { s with storage := storageSet s.storage "mnemonic" mnemonic }
          let s := match display_name with
            | some dn => { s with storage := storageSet s.storage "display_name" dn }
            | none => s
          ({ s with is_authorized := true }, .ok ())

end Core

/-! ## Snode discovery, swarm resolution, store path
Sources: src/session_py/instance/snodes.py (get_snodes),
src/session_py/instance/swarms.py (get_swarms_for, get_our_swarm),
src/session_py/instance/store_message.py (_store_message).  Network traffic
and random.choice draws are oracle inputs: one entry per loop attempt. -/

namespace Core

/-- get_snodes from snodes.py: return the cached pool when present, else run
the seed bootstrap (whose outcome is the fetch oracle) and cache it.  The
Python method returns self.snodes itself, i.e. the very list object held in
the cache; callers therefore alias the cache. -/
def get_snodes (fetch : Except SessErr (List Snode)) (s : SessionState) :
    SessionState × Except SessErr (List Snode) :=
  match s.snodes with
  | some cached => (s, .ok cached)
  | none =>
    match fetch with
    | .error e => (s, .error e)
    | .ok fetched => ({ s with snodes := some fetched }, .ok fetched)

/-- Raw snode entry of a get_swarm response body; each field may arrive under
either key of its pair, hence two optional slots per field. -/
structure RawSnode where
  ip : Option String
  public_ip : Option String
  port : Option Int
  storage_port : Option Int
  x25519 : Option String
  pubkey_x25519 : Option String
  ed25519 : Option String
  pubkey_ed25519 : Option String
deriving DecidableEq

/-- Python s.get(a) or s.get(b): the first operand wins unless it is falsy
(absent or empty); a missing result is collapsed to the empty value here. -/
def pyOrStr (a b : Option String) : String :=
  match a with
  | some v => if v = "" then b.getD "" else v
  | none => b.getD ""

/-- Python s.get(a) or s.get(b) for integers (0 is falsy). -/
def pyOrInt (a b : Option Int) : Int :=
  match a with
  | some v => if v = 0 then b.getD 0 else v
  | none => b.getD 0

/-- Snode construction inside get_swarms_for from one raw response entry. -/
def rawToSnode (r : RawSnode) : Snode :=
  { host := pyOrStr r.ip r.public_ip,
    port := pyOrInt r.port r.storage_port,
    pubkey_x25519 := pyOrStr r.x25519 r.pubkey_x25519,
    pubkey_ed25519 := pyOrStr r.ed25519 r.pubkey_ed25519 }

/-- Outcome of one swarm-fetch attempt, as seen after the batch request:
an entry of the batch response (code plus snodes list), an invalid or empty
batch (retriable SessionFetchError), a transport error (retriable), or an
unexpected exception (the loop breaks). -/
inductive AttemptOutcome where
  | entry (code : Option Int) (snodes_list : List RawSnode)
  | invalidBatch
  | transportError
  | unexpectedError
deriving DecidableEq

/-- Retry loop of get_swarms_for.  One oracle pair per attempt: the
random.choice index and the network outcome.  Returns the candidate list as
it stands when the loop exits, the snodes contacted in order, and the result.
The chosen snode is removed from the candidate list (list.remove, first
occurrence) before the request is issued; a 421 code and every other
empty-response shape land in the same retriable SessionFetchError branch. -/
def swarmAttemptLoop : List (Nat × AttemptOutcome) → List Snode →
    List Snode × List Snode × Except SessErr (List Swarm)
  | [], available => (available, [], .error (.fetchError .SNODE_ERROR))
  | (pick, outcome) :: rest, available =>
    if available.isEmpty then
      (available, [], .error (.fetchError .SNODE_ERROR))
    else
      let snode := available.getD (pick % available.length) ⟨"", 0, "", ""⟩
      let available2 := available.erase snode
      match outcome with
      | .entry _code snodes_list =>
        if snodes_list.isEmpty then
          -- code 421 or any other empty body: SessionFetchError, caught, retry
          let t := swarmAttemptLoop rest available2
          (t.1, snode :: t.2.1, t.2.2)
        else
          (available2, [snode], .ok [{ snodes := snodes_list.map rawToSnode }])
      | .invalidBatch =>
        let t := swarmAttemptLoop rest available2
        (t.1, snode :: t.2.1, t.2.2)
      | .transportError =>
        let t := swarmAttemptLoop rest available2
        (t.1, snode :: t.2.1, t.2.2)
      | .unexpectedError =>
        (available2, [snode], .error (.fetchError .SNODE_ERROR))

/-- get_swarms_for from swarms.py.  available_snodes is the value returned by
get_snodes, which is the cached list object itself, so the removals the loop
performs are removals from the session's snode cache: the final candidate
list is written back into the snodes field to model the aliasing.  The
attempts oracle has max_attempts entries. -/
def get_swarms_for (fetch : Except SessErr (List Snode))
    (attempts : List (Nat × AttemptOutcome)) (s : SessionState)
    (session_id : String) :
    SessionState × List Snode × Except SessErr (List Swarm) :=
  let r := get_snodes fetch s
  let s1 := r.1
  match r.2 with
  | .error e => (s1, [], .error e)
  | .ok available =>
    if available.isEmpty then
      (s1, [], .error (.runtimeError .EMPTY_USER))
    else
      let t := swarmAttemptLoop attempts available
      ({ s1 with snodes := some t.1 }, t.2.1, t.2.2)

/-- get_our_swarm from swarms.py: cached swarm if present; otherwise resolve
with our own session id, store the list in our_swarms, pick one at random
(random.choice raises IndexError on an empty list) and cache it. -/
def get_our_swarm (fetch : Except SessErr (List Snode))
    (attempts : List (Nat × AttemptOutcome)) (pickSwarm : Nat)
    (s : SessionState) : SessionState × Except SessErr Swarm :=
  match s.session_id with
  | none => (s, .error (.runtimeError .EMPTY_USER))
  | some sid =>
    match s.our_swarm with
    | some sw => (s, .ok sw)
    | none =>
      let t := get_swarms_for fetch attempts s sid
      let s1 := t.1
      match t.2.2 with
      | .error e => (s1, .error e)
      | .ok swarms =>
        let s2 := { s1 with our_swarms := some swarms }
        if swarms.isEmpty then
          (s2, .error (.valueError "Cannot choose from an empty sequence"))
        else
          let sw := swarms.getD (pickSwarm % swarms.length) ⟨[]⟩
          ({ s2 with our_swarm := some sw }, .ok sw)

/-- Payload fields of a prepared message handed to _store_message. -/
structure StoreData where
  destination : String
  ttl : Int
  data64 : String
deriving DecidableEq

/-- Snode reply to one store attempt: the HTTP status and the hash contained
in the response body (the latter is what the spec says must be returned). -/
structure StoreResponse where
  status_code : Int
  hash : String
deriving DecidableEq

/-- Retry loop of _store_message: up to five attempts, each picking a swarm
and a snode at random (oracle indices) and sending the store RPC (oracle
response).  On a 200 status the source returns the literal string
hash_from_response without parsing the reply; on any other status the chosen
swarm is dropped from the candidate list and the loop retries, re-raising
when no swarm is left.  random.choice on a swarm with no snodes raises
IndexError, which the except clause (only SessionFetchError) does not
catch. -/
def storeAttemptLoop : List (Nat × Nat × StoreResponse) → List Swarm →
    Except SessErr String
  | [], _ => .error (.fetchError .SNODE_ERROR)
  | (ps, pn, resp) :: rest, swarms =>
    let swarm := swarms.getD (ps % swarms.length) ⟨[]⟩
    if swarm.snodes.isEmpty then
      .error (.valueError "Cannot choose from an empty sequence")
    else
      let _snode := swarm.snodes.getD (pn % swarm.snodes.length) ⟨"", 0, "", ""⟩
      if resp.status_code = 200 then
        .ok "hash_from_response"
      else
        let swarms2 := swarms.filter (fun sw => sw ≠ swarm)
        if swarms2.isEmpty then .error (.fetchError .SNODE_ERROR)
        else storeAttemptLoop rest swarms2

/-- _store_message from store_message.py: resolve the swarms (the our-swarm
shortcut when the destination is our own session id), then run the retry
loop.  The store oracle list has the five loop attempts. -/
def _store_message (fetch : Except SessErr (List Snode))
    (attempts : List (Nat × AttemptOutcome)) (pickSwarm : Nat)
    (storeOracles : List (Nat × Nat × StoreResponse))
    (s : SessionState) (data : StoreData) :
    SessionState × Except SessErr String :=
  let message_to_self := s.session_id = some data.destination
  let resolved :=
    if message_to_self then
      let r := get_our_swarm fetch attempts pickSwarm s
      (r.1, r.2.map (fun sw => [sw]))
    else
      let r := get_swarms_for fetch attempts s data.destination
      (r.1, r.2.2)
  let s1 := resolved.1
  match resolved.2 with
  | .error e => (s1, .error e)
  | .ok swarms =>
    if swarms.isEmpty then (s1, .error (.fetchError .SNODE_ERROR))
    else (s1, storeAttemptLoop storeOracles swarms)

end Core

/-! ### Frame facts over the session state -/

/-- The four authorization fields of the claim: is_authorized, keypair,
session_id, mnemonic, compared between a state s before an operation and the
state t after it. -/
def fourPreserved (s t : Core.SessionState) : Prop :=
  t.is_authorized = s.is_authorized ∧ t.keypair = s.keypair ∧
    t.session_id = s.session_id ∧ t.mnemonic = s.mnemonic

theorem get_snodes_frame (fetch : Except SessErr (List Core.Snode))
    (s : Core.SessionState) : fourPreserved s (Core.get_snodes fetch s).1 := by
  unfold Core.get_snodes fourPreserved
  split
  · exact ⟨rfl, rfl, rfl, rfl⟩
  · split
    · exact ⟨rfl, rfl, rfl, rfl⟩
    · exact ⟨rfl, rfl, rfl, rfl⟩

theorem get_swarms_for_frame (fetch : Except SessErr (List Core.Snode))
    (attempts : List (Nat × Core.AttemptOutcome)) (s : Core.SessionState)
    (sid : String) : fourPreserved s (Core.get_swarms_for fetch attempts s sid).1 := by
  have h := get_snodes_frame fetch s
  unfold fourPreserved at h ⊢
  simp only [Core.get_swarms_for]
  split
  · exact h
  · split
    · exact h
    · exact h

theorem get_our_swarm_frame (fetch : Except SessErr (List Core.Snode))
    (attempts : List (Nat × Core.AttemptOutcome)) (pickSwarm : Nat)
    (s : Core.SessionState) :
    fourPreserved s (Core.get_our_swarm fetch attempts pickSwarm s).1 := by
  have h := get_swarms_for_frame fetch attempts s
  unfold fourPreserved at h ⊢
  simp only [Core.get_our_swarm]
  split
  · exact ⟨rfl, rfl, rfl, rfl⟩
  · split
    · exact ⟨rfl, rfl, rfl, rfl⟩
    · split
      · exact h _
      · split
        · exact h _
        · exact h _

theorem store_message_frame (fetch : Except SessErr (List Core.Snode))
    (attempts : List (Nat × Core.AttemptOutcome)) (pickSwarm : Nat)
    (storeOracles : List (Nat × Nat × Core.StoreResponse))
    (s : Core.SessionState) (data : Core.StoreData) :
    fourPreserved s (Core._store_message fetch attempts pickSwarm storeOracles s data).1 := by
  have h1 := get_our_swarm_frame fetch attempts pickSwarm s
  have h2 := get_swarms_for_frame fetch attempts s data.destination
  unfold fourPreserved at h1 h2 ⊢
  simp only [Core._store_message]
  by_cases hself : s.session_id = some data.destination
  · rw [if_pos hself]
    split
    · exact h1
    · split
      · exact h1
      · exact h1
  · rw [if_neg hself]
    split
    · exact h2
    · split
      · exact h2
      · exact h2

/-! ### C6 and C10: the authorization lifecycle -/

/-- C6: a Session is authorized exactly once.  Calling set_mnemonic on an
authorized Session raises the ALREADY_INITIALIZED runtime error and leaves
the state untouched, and none of the embedded state-mutating operations
(get_snodes, get_swarms_for, get_our_swarm, _store_message) changes
is_authorized, keypair, session_id or mnemonic. -/
theorem c6_authorized_once (words : List String) (M : NaCl)
    (fetch : Except SessErr (List Core.Snode))
    (attempts : List (Nat × Core.AttemptOutcome)) (pickSwarm : Nat)
    (storeOracles : List (Nat × Nat × Core.StoreResponse))
    (s : Core.SessionState) (m sid : String) (dn : Option String)
    (data : Core.StoreData) (h : s.is_authorized = true) :
    Core.set_mnemonic words M s m dn
        = (s, .error (.runtimeError .ALREADY_INITIALIZED)) ∧
      fourPreserved s (Core.get_snodes fetch s).1 ∧
      fourPreserved s (Core.get_swarms_for fetch attempts s sid).1 ∧
      fourPreserved s (Core.get_our_swarm fetch attempts pickSwarm s).1 ∧
      fourPreserved s (Core._store_message fetch attempts pickSwarm storeOracles s data).1 := by
  refine ⟨?_, get_snodes_frame fetch s, get_swarms_for_frame fetch attempts s sid,
    get_our_swarm_frame fetch attempts pickSwarm s,
    store_message_frame fetch attempts pickSwarm storeOracles s data⟩
  unfold Core.set_mnemonic
  rw [if_pos h]

/-- Every error exit of set_mnemonic happens before the first field
assignment, so an erroring call returns the input state unchanged. -/
theorem set_mnemonic_error_frame (words : List String) (M : NaCl)
    (s : Core.SessionState) (m : String) (dn : Option String) (e : SessErr)
    (h : (Core.set_mnemonic words M s m dn).2 = .error e) :
    (Core.set_mnemonic words M s m dn).1 = s := by
  simp only [Core.set_mnemonic] at h ⊢
  split at h
  next h1 => rw [if_pos h1]
  next h1 =>
    rw [if_neg h1]
    split at h
    next h2 => rw [if_pos h2]
    next h2 =>
      rw [if_neg h2]
      split at h
      next e2 heq => rfl
      next seed heq =>
        split at h
        next e3 heq2 => rfl
        next kp heq2 => simp at h

/-- C10: set_mnemonic is atomic on validation and lifecycle failure.  When
the call returns an error (already authorized, wrong word count, or a decode
failure), the Session state, all its fields included, is exactly the input
state; consequently a later set_mnemonic call behaves exactly as if the
failed call had never happened. -/
theorem c10_set_mnemonic_atomic (words : List String) (M : NaCl)
    (s : Core.SessionState) (m m2 : String) (dn dn2 : Option String)
    (e : SessErr) (h : (Core.set_mnemonic words M s m dn).2 = .error e) :
    (Core.set_mnemonic words M s m dn).1 = s ∧
      Core.set_mnemonic words M (Core.set_mnemonic words M s m dn).1 m2 dn2
        = Core.set_mnemonic words M s m2 dn2 := by
  have h1 := set_mnemonic_error_frame words M s m dn e h
  exact ⟨h1, by rw [h1]⟩

/-! ### Concrete fixtures used by witnesses -/

/-- Twelve toy mnemonic words with pairwise distinct 3-letter prefixes (the
decode algorithm is parametric in the word list; the real 1626-entry list is
a JSON asset). -/
def toyWords : List String :=
  ["aaa", "bbb", "ccc", "ddd", "eee", "fff", "ggg", "hhh", "iii", "jjj", "kkk", "lll"]

/-- Session state as produced by Session.__init__. -/
def freshSession : Core.SessionState :=
  { mnemonic := none, keypair := none, session_id := none, display_name := none,
    avatar := none, snodes := none, our_swarms := none, our_swarm := none,
    is_authorized := false, storage := [] }

/-- A 13-word mnemonic over toyWords that decodes successfully. -/
def validMnemonic13 : String :=
  "aaa aaa aaa aaa aaa aaa aaa aaa aaa aaa aaa aaa aaa"

/-- Sanity check of the embedding: set_mnemonic accepts validMnemonic13 on a
fresh session and authorizes it. -/
theorem set_mnemonic_valid_ok :
    (Core.set_mnemonic toyWords toyNaCl freshSession validMnemonic13 none).2 = .ok ()
      ∧ (Core.set_mnemonic toyWords toyNaCl freshSession validMnemonic13 none).1.is_authorized
          = true := by
  constructor
  · decide
  · decide

/-- C10 witness: a failed set_mnemonic (3 words) on a fresh session leaves the
state untouched, and a following set_mnemonic behaves as on the fresh
session. -/
theorem c10_set_mnemonic_atomic_witness :
    (Core.set_mnemonic toyWords toyNaCl freshSession "a b c" none).1 = freshSession ∧
      Core.set_mnemonic toyWords toyNaCl
          (Core.set_mnemonic toyWords toyNaCl freshSession "a b c" none).1
          validMnemonic13 none
        = Core.set_mnemonic toyWords toyNaCl freshSession validMnemonic13 none :=
  c10_set_mnemonic_atomic toyWords toyNaCl freshSession "a b c" validMnemonic13 none none
    (.validationError .INVALID_MNEMONIC) (by decide)

/-- A toy keypair for the authorized fixture. -/
def toyCoreKeypair : Core.Keypair :=
  { ed25519 := { pub_key := List.replicate 32 7, priv_key := List.replicate 32 0 },
    x25519 := { pub_key := List.replicate 32 9, priv_key := List.replicate 32 1 } }

/-- An authorized session fixture. -/
def authorizedSession : Core.SessionState :=
  { mnemonic := some validMnemonic13, keypair := some toyCoreKeypair,
    session_id := some "05aa", display_name := none, avatar := none,
    snodes := none, our_swarms := none, our_swarm := none,
    is_authorized := true, storage := [("mnemonic", validMnemonic13)] }

/-- C6 witness: on the concrete authorized session, set_mnemonic errors with
ALREADY_INITIALIZED, the state is untouched, and the state-mutating
operations preserve the four authorization fields. -/
theorem c6_authorized_once_witness :
    Core.set_mnemonic toyWords toyNaCl authorizedSession "x" none
        = (authorizedSession, .error (.runtimeError .ALREADY_INITIALIZED)) ∧
      fourPreserved authorizedSession (Core.get_snodes (.ok []) authorizedSession).1 ∧
      fourPreserved authorizedSession
        (Core.get_swarms_for (.ok []) [] authorizedSession "05bb").1 ∧
      fourPreserved authorizedSession
        (Core.get_our_swarm (.ok []) [] 0 authorizedSession).1 ∧
      fourPreserved authorizedSession
        (Core._store_message (.ok []) [] 0 [] authorizedSession
          { destination := "05bb", ttl := 86400000, data64 := "d" }).1 :=
  c6_authorized_once toyWords toyNaCl (.ok []) [] 0 [] authorizedSession "x" "05bb" none
    { destination := "05bb", ttl := 86400000, data64 := "d" } rfl

/-! ### C7: within one swarm resolution no snode is contacted twice -/

theorem swarmAttemptLoop_contacted :
    ∀ (attempts : List (Nat × Core.AttemptOutcome)) (available : List Core.Snode),
      available.Nodup →
      (Core.swarmAttemptLoop attempts available).2.1.Nodup ∧
        ∀ x ∈ (Core.swarmAttemptLoop attempts available).2.1, x ∈ available := by
  intro attempts
  induction attempts with
  | nil =>
    intro available _
    exact ⟨by simp [Core.swarmAttemptLoop], by simp [Core.swarmAttemptLoop]⟩
  | cons head rest ih =>
    obtain ⟨pick, outcome⟩ := head
    intro available hnd
    by_cases hemp : available.isEmpty
    · exact ⟨by simp [Core.swarmAttemptLoop, hemp], by simp [Core.swarmAttemptLoop, hemp]⟩
    · have hlen : 0 < available.length := by
        cases available
        · simp at hemp
        · simp
      have hlt : pick % available.length < available.length := Nat.mod_lt _ hlen
      have hmem : available.getD (pick % available.length) ⟨"", 0, "", ""⟩ ∈ available := by
        rw [List.getD_eq_getElem _ _ hlt]
        exact List.getElem_mem hlt
      have hnd2 : (available.erase (available.getD (pick % available.length)
          ⟨"", 0, "", ""⟩)).Nodup := hnd.erase _
      have hnot : available.getD (pick % available.length) ⟨"", 0, "", ""⟩
          ∉ available.erase (available.getD (pick % available.length) ⟨"", 0, "", ""⟩) := by
        intro hx
        exact absurd ((hnd.mem_erase_iff).mp hx).1 (by simp)
      obtain ⟨ihnd, ihsub⟩ := ih _ hnd2
      cases outcome with
      | entry code lst =>
        by_cases hl : lst.isEmpty
        · constructor
          · simp only [Core.swarmAttemptLoop, if_neg hemp, if_pos hl]
            exact List.nodup_cons.mpr ⟨fun hx => hnot (ihsub _ hx), ihnd⟩
          · simp only [Core.swarmAttemptLoop, if_neg hemp, if_pos hl]
            intro x hx
            rcases List.mem_cons.mp hx with h | h
            · exact h ▸ hmem
            · exact List.mem_of_mem_erase (ihsub _ h)
        · constructor
          · simp [Core.swarmAttemptLoop, hemp, hl]
          · simp only [Core.swarmAttemptLoop, if_neg hemp, if_neg hl]
            intro x hx
            rcases List.mem_cons.mp hx with h | h
            · exact h ▸ hmem
            · simp at h
      | invalidBatch =>
        constructor
        · simp only [Core.swarmAttemptLoop, if_neg hemp]
          exact List.nodup_cons.mpr ⟨fun hx => hnot (ihsub _ hx), ihnd⟩
        · simp only [Core.swarmAttemptLoop, if_neg hemp]
          intro x hx
          rcases List.mem_cons.mp hx with h | h
          · exact h ▸ hmem
          · exact List.mem_of_mem_erase (ihsub _ h)
      | transportError =>
        constructor
        · simp only [Core.swarmAttemptLoop, if_neg hemp]
          exact List.nodup_cons.mpr ⟨fun hx => hnot (ihsub _ hx), ihnd⟩
        · simp only [Core.swarmAttemptLoop, if_neg hemp]
          intro x hx
          rcases List.mem_cons.mp hx with h | h
          · exact h ▸ hmem
          · exact List.mem_of_mem_erase (ihsub _ h)
      | unexpectedError =>
        constructor
        · simp [Core.swarmAttemptLoop, hemp]
        · simp only [Core.swarmAttemptLoop, if_neg hemp]
          intro x hx
          rcases List.mem_cons.mp hx with h | h
          · exact h ▸ hmem
          · simp at h

/-- C7: within a single get_swarms_for call no snode is contacted twice: the
chosen snode is removed from the candidate list before the request is issued,
so, the cached pool having no duplicate entries, the sequence of contacted
snodes is duplicate-free (and drawn from the pool). -/
theorem c7_no_snode_contacted_twice (fetch : Except SessErr (List Core.Snode))
    (attempts : List (Nat × Core.AttemptOutcome)) (s : Core.SessionState)
    (sid : String) (pool : List Core.Snode)
    (hpool : (Core.get_snodes fetch s).2 = .ok pool) (hnd : pool.Nodup) :
    (Core.get_swarms_for fetch attempts s sid).2.1.Nodup ∧
      ∀ x ∈ (Core.get_swarms_for fetch attempts s sid).2.1, x ∈ pool := by
  have hloop := swarmAttemptLoop_contacted attempts pool hnd
  simp only [Core.get_swarms_for, hpool]
  by_cases hemp : pool.isEmpty
  · rw [if_pos hemp]
    simp
  · rw [if_neg hemp]
    exact hloop

/-- Snode fixtures. -/
def snA : Core.Snode :=
  { host := "1.2.3.4", port := 1234, pubkey_x25519 := "xa", pubkey_ed25519 := "ea" }

def snB : Core.Snode :=
  { host := "5.6.7.8", port := 5678, pubkey_x25519 := "xb", pubkey_ed25519 := "eb" }

/-- A raw get_swarm response entry using the short field names. -/
def rawEntry : Core.RawSnode :=
  { ip := some "9.9.9.9", public_ip := none, port := some 4443, storage_port := none,
    x25519 := some "xr", pubkey_x25519 := none, ed25519 := some "er", pubkey_ed25519 := none }

/-- C7 witness: a concrete run with a two-snode pool, one retriable failure
and then a success, contacts two distinct snodes both from the pool. -/
theorem c7_no_snode_contacted_twice_witness :
    (Core.get_swarms_for (.ok []) [(0, .transportError), (0, .entry none [rawEntry])]
        { freshSession with snodes := some [snA, snB] } "05aa").2.1.Nodup ∧
      ∀ x ∈ (Core.get_swarms_for (.ok []) [(0, .transportError), (0, .entry none [rawEntry])]
          { freshSession with snodes := some [snA, snB] } "05aa").2.1, x ∈ [snA, snB] :=
  c7_no_snode_contacted_twice (.ok []) [(0, .transportError), (0, .entry none [rawEntry])]
    { freshSession with snodes := some [snA, snB] } "05aa" [snA, snB] (by decide) (by decide)

/-- C9 counterexample: a successful get_swarms_for call removes the contacted
snode from the cached pool (available_snodes is the cached list itself and
list.remove mutates it), so the cache does not contain the same snodes after
the call: it shrank from one snode to none even though the call succeeded. -/
theorem c9_counterexample :
    (Core.get_swarms_for (.ok []) [(0, .entry none [rawEntry])]
        { freshSession with snodes := some [snA] } "05aa").1.snodes = some [] ∧
      (Core.get_swarms_for (.ok []) [(0, .entry none [rawEntry])]
          { freshSession with snodes := some [snA] } "05aa").2.2
        = .ok [⟨[Core.rawToSnode rawEntry]⟩] ∧
      ({ freshSession with snodes := some [snA] } : Core.SessionState).snodes
        = some [snA] := by
  refine ⟨by decide, by decide, rfl⟩

/-! ### C3: the hash returned by _store_message -/

/-- Session fixture for the store path: authorized-ish state with a cached
snode pool, whose session id differs from the destination. -/
def c3State : Core.SessionState :=
  { freshSession with session_id := some "05me", snodes := some [snA] }

def c3Data : Core.StoreData :=
  { destination := "05aa", ttl := 86400000, data64 := "ZGF0YQ==" }

/-- C3: whenever a store attempt receives a 200 response, _store_message
returns the literal placeholder string hash_from_response, whatever hash the
snode response carries: the response is never parsed. -/
theorem c3_store_returns_placeholder (resp : Core.StoreResponse) (ps pn : Nat)
    (hcode : resp.status_code = 200) :
    (Core._store_message (.ok []) [(0, .entry none [rawEntry])] 0 [(ps, pn, resp)]
        c3State c3Data).2 = .ok "hash_from_response" := by
  simp [Core._store_message, Core.get_swarms_for, Core.get_snodes,
    Core.swarmAttemptLoop, Core.storeAttemptLoop, Core.rawToSnode,
    Core.pyOrStr, Core.pyOrInt, c3State, c3Data, rawEntry, freshSession,
    snA, hcode, Nat.mod_one]

/-- C3 witness: at a concrete 200 response whose body hash is abc, the caller
still receives hash_from_response rather than abc. -/
theorem c3_store_returns_placeholder_witness :
    (Core._store_message (.ok []) [(0, .entry none [rawEntry])] 0
        [(0, 0, { status_code := 200, hash := "abc" })] c3State c3Data).2
      = .ok "hash_from_response" :=
  c3_store_returns_placeholder { status_code := 200, hash := "abc" } 0 0 rfl

/-! ## Poller iteration
Source: src/session_py/polling/poller.py, Poller.poll.  One iteration
processes the batch response entry of each namespace in the hardcoded order
UserMessages (0), ConvoInfoVolatile (2), UserContacts (3), UserGroups (5),
UserProfile (4).  The per-message pipeline (base64 decode, decrypt,
Content.decode, presence of dataMessage) can throw or yield nothing, which is
modelled by an oracle function returning an Option; the callback invocations
and the storage.set calls are recorded as an event trace in program order. -/

namespace Core

/-- One raw message of a retrieve sub-response body. -/
structure RawMessage where
  data : String
  hash : String
  pubkey : String
deriving DecidableEq

/-- One entry of the batch response. -/
structure SubResponse where
  code : Int
  messages : List RawMessage
deriving DecidableEq

/-- A decrypted data message about to be delivered: the decoded content
(abstract payload) with author_session_id set to the pubkey of the raw
message, as the poll loop does before invoking the callbacks. -/
structure DataMessage (α : Type) where
  payload : α
  author_session_id : String
deriving DecidableEq

/-- Observable actions of one poll iteration, in program order: a message
delivered to the on_message callbacks, or a cursor persisted through
storage.set. -/
inductive PollEvent (α : Type) where
  | deliver (ns : Int) (m : DataMessage α)
  | persist (ns : Int) (h : String)
deriving DecidableEq

def pollEventNs {α : Type} : PollEvent α → Int
  | .deliver ns _ => ns
  | .persist ns _ => ns

/-- Storage key of the namespace cursor, the Python f-string
last_hash_{namespace}. -/
def cursorKey (n : Int) : String := "last_hash_" ++ toString n

/-- Inner message loop of poll: decrypt each raw message (failures are caught,
printed and skipped), set the author, collect it and fire the callbacks. -/
def processMessages {α : Type} (dec : RawMessage → Option α) (ns : Int) :
    List RawMessage → List (DataMessage α) × List (PollEvent α)
  | [] => ([], [])
  | m :: rest =>
    match dec m with
    | some d =>
      let dm : DataMessage α := { payload := d, author_session_id := m.pubkey }
      let t := processMessages dec ns rest
      (dm :: t.1, PollEvent.deliver ns dm :: t.2)
    | none => processMessages dec ns rest

/-- One sub-response of the batch: skipped with a warning when the code is
not 200; otherwise the messages are processed and, when the raw message list
is non-empty, the cursor is persisted to the hash of its last element, after
the callbacks have run. -/
def processSubResponse {α : Type} (dec : RawMessage → Option α) (ns : Int)
    (sr : SubResponse) (st : List (String × String)) :
    List (String × String) × List (PollEvent α) × List (DataMessage α) :=
  if sr.code ≠ 200 then (st, [], [])
  else
    let t := processMessages dec ns sr.messages
    match sr.messages.getLast? with
    | some lastMsg =>
      (storageSet st (cursorKey ns) lastMsg.hash,
        t.2 ++ [PollEvent.persist ns lastMsg.hash], t.1)
    | none => (st, t.2, t.1)

/-- The namespaces poll iterates over, in source order. -/
def pollNamespaces : List Int := [0, 2, 3, 5, 4]

/-- Iteration over the (namespace, sub-response) pairs, threading the
storage. -/
def pollIteration {α : Type} (dec : RawMessage → Option α) :
    List (Int × SubResponse) → List (String × String) →
    List (String × String) × List (PollEvent α) × List (DataMessage α)
  | [], st => (st, [], [])
  | (ns, sr) :: rest, st =>
    let t1 := processSubResponse dec ns sr st
    let t2 := pollIteration dec rest t1.1
    (t2.1, t1.2.1 ++ t2.2.1, t1.2.2 ++ t2.2.2)

/-- One call of Poller.poll given the batch response (the final
on_messages_received call receives the accumulated messages and does not
touch the cursors). -/
def poll {α : Type} (dec : RawMessage → Option α) (batch : List SubResponse)
    (st : List (String × String)) :
    List (String × String) × List (PollEvent α) × List (DataMessage α) :=
  pollIteration dec (pollNamespaces.zip batch) st

/-- The successfully decrypted messages of a raw list: decrypt failures are
dropped, the others keep their order and carry the pubkey as author. -/
def decryptedOf {α : Type} (dec : RawMessage → Option α) (ms : List RawMessage) :
    List (DataMessage α) :=
  ms.filterMap (fun m => (dec m).map
    (fun d => { payload := d, author_session_id := m.pubkey }))

end Core

/-! ### C2: cursor advancement and delivery order in one poll iteration -/

theorem processMessages_eq {α : Type} (dec : Core.RawMessage → Option α) (ns : Int) :
    ∀ ms : List Core.RawMessage,
      Core.processMessages dec ns ms
        = (Core.decryptedOf dec ms,
            (Core.decryptedOf dec ms).map (Core.PollEvent.deliver ns))
  | [] => rfl
  | m :: rest => by
    simp only [Core.processMessages, Core.decryptedOf, List.filterMap_cons]
    cases hd : dec m with
    | none =>
      simpa [Core.decryptedOf] using processMessages_eq dec ns rest
    | some d =>
      have ih := processMessages_eq dec ns rest
      simp only [Core.decryptedOf] at ih
      simp [ih, Option.map_some]

theorem storageGet_set_same (st : List (String × String)) (k v : String) :
    Core.storageGet (Core.storageSet st k v) k = some v := by
  simp [Core.storageGet, Core.storageSet]

theorem storageGet_set_other (st : List (String × String)) (k v k2 : String)
    (h : k2 ≠ k) :
    Core.storageGet (Core.storageSet st k v) k2 = Core.storageGet st k2 := by
  simp [Core.storageGet, Core.storageSet, List.find?_cons, Ne.symm h]

theorem processSub_get_other {α : Type} (dec : Core.RawMessage → Option α)
    (ns : Int) (sr : Core.SubResponse) (st : List (String × String)) (k : String)
    (hk : k ≠ Core.cursorKey ns) :
    Core.storageGet (Core.processSubResponse dec ns sr st).1 k
      = Core.storageGet st k := by
  simp only [Core.processSubResponse]
  split
  · rfl
  · split
    · exact storageGet_set_other st (Core.cursorKey ns) _ k hk
    · rfl

theorem processSub_events_ns {α : Type} (dec : Core.RawMessage → Option α)
    (ns : Int) (sr : Core.SubResponse) (st : List (String × String)) :
    ∀ e ∈ (Core.processSubResponse dec ns sr st).2.1, Core.pollEventNs e = ns := by
  simp only [Core.processSubResponse]
  split
  · simp
  · rw [processMessages_eq]
    split
    · intro e he
      rcases List.mem_append.mp he with h1 | h1
      · rcases List.mem_map.mp h1 with ⟨dm, _, rfl⟩
        rfl
      · simp at h1
        subst h1
        rfl
    · intro e he
      rcases List.mem_map.mp he with ⟨dm, _, rfl⟩
      rfl

theorem pollIteration_get_other {α : Type} (dec : Core.RawMessage → Option α)
    (pairs : List (Int × Core.SubResponse)) (k : String) :
    ∀ st : List (String × String),
      (∀ p ∈ pairs, k ≠ Core.cursorKey p.1) →
      Core.storageGet (Core.pollIteration dec pairs st).1 k = Core.storageGet st k := by
  induction pairs with
  | nil => intro st _; rfl
  | cons q rest ih =>
    obtain ⟨ns, sr⟩ := q
    intro st h
    simp only [Core.pollIteration]
    rw [ih _ (fun p hp => h p (List.mem_cons_of_mem _ hp))]
    exact processSub_get_other dec ns sr st k (h (ns, sr) (List.mem_cons_self _ _))

theorem pollIteration_events_ns {α : Type} (dec : Core.RawMessage → Option α)
    (pairs : List (Int × Core.SubResponse)) :
    ∀ st : List (String × String),
      ∀ e ∈ (Core.pollIteration dec pairs st).2.1, ∃ p ∈ pairs, Core.pollEventNs e = p.1 := by
  induction pairs with
  | nil => intro st e he; simp [Core.pollIteration] at he
  | cons q rest ih =>
    obtain ⟨ns, sr⟩ := q
    intro st e he
    simp only [Core.pollIteration] at he
    rcases List.mem_append.mp he with h1 | h1
    · exact ⟨(ns, sr), List.mem_cons_self _ _, processSub_events_ns dec ns sr st e h1⟩
    · obtain ⟨p, hp, hns⟩ := ih _ e h1
      exact ⟨p, List.mem_cons_of_mem _ hp, hns⟩

/-- Per-namespace contract of one poll iteration: when the namespace's
sub-response has code 200 and a last raw message, the persisted cursor equals
that message's hash and the namespace's event trace is the deliveries of the
successfully decrypted messages, in order, followed by the single persist;
when the code is not 200 the cursor is unchanged and nothing of that
namespace is delivered or persisted. -/
def nsCursorSpec {α : Type} (dec : Core.RawMessage → Option α)
    (st0 stF : List (String × String)) (evs : List (Core.PollEvent α))
    (n : Int) (sr : Core.SubResponse) : Prop :=
  (∀ lm, sr.code = 200 → sr.messages.getLast? = some lm →
    Core.storageGet stF (Core.cursorKey n) = some lm.hash ∧
      evs.filter (fun e => Core.pollEventNs e = n)
        = ((Core.decryptedOf dec sr.messages).map (Core.PollEvent.deliver n))
            ++ [Core.PollEvent.persist n lm.hash]) ∧
  (sr.code ≠ 200 →
    Core.storageGet stF (Core.cursorKey n) = Core.storageGet st0 (Core.cursorKey n) ∧
      evs.filter (fun e => Core.pollEventNs e = n) = [])

theorem pollIteration_cursor_spec {α : Type} (dec : Core.RawMessage → Option α)
    (pre : List (Int × Core.SubResponse)) (n : Int) (sr : Core.SubResponse)
    (post : List (Int × Core.SubResponse)) :
    ∀ st0 : List (String × String),
      (∀ p ∈ pre, Core.cursorKey p.1 ≠ Core.cursorKey n) →
      (∀ p ∈ post, Core.cursorKey p.1 ≠ Core.cursorKey n) →
      nsCursorSpec dec st0 (Core.pollIteration dec (pre ++ (n, sr) :: post) st0).1
        (Core.pollIteration dec (pre ++ (n, sr) :: post) st0).2.1 n sr := by
  induction pre with
  | nil =>
    intro st0 _ hpost
    simp only [List.nil_append]
    constructor
    · intro lm hcode hlast
      have ht1 : Core.processSubResponse dec n sr st0
          = (Core.storageSet st0 (Core.cursorKey n) lm.hash,
              ((Core.decryptedOf dec sr.messages).map (Core.PollEvent.deliver n))
                ++ [Core.PollEvent.persist n lm.hash],
              Core.decryptedOf dec sr.messages) := by
        simp only [Core.processSubResponse, hcode, hlast, processMessages_eq]
        simp
      constructor
      · simp only [Core.pollIteration, ht1]
        rw [pollIteration_get_other dec post (Core.cursorKey n) _
          (fun p hp => (hpost p hp).symm)]
        exact storageGet_set_same st0 (Core.cursorKey n) lm.hash
      · simp only [Core.pollIteration, ht1, List.filter_append]
        have hdel : ((Core.decryptedOf dec sr.messages).map
            (Core.PollEvent.deliver n)).filter (fun e => Core.pollEventNs e = n)
            = (Core.decryptedOf dec sr.messages).map (Core.PollEvent.deliver n) := by
          rw [List.filter_eq_self]
          intro e he
          rcases List.mem_map.mp he with ⟨dm, _, rfl⟩
          simp [Core.pollEventNs]
        have hper : ([Core.PollEvent.persist n lm.hash] :
            List (Core.PollEvent α)).filter (fun e => Core.pollEventNs e = n)
            = [Core.PollEvent.persist n lm.hash] := by
          simp [Core.pollEventNs]
        have hrest : ((Core.pollIteration dec post
            (Core.storageSet st0 (Core.cursorKey n) lm.hash)).2.1).filter
              (fun e => Core.pollEventNs e = n) = [] := by
          rw [List.filter_eq_nil_iff]
          intro e he
          obtain ⟨p, hp, hns⟩ := pollIteration_events_ns dec post _ e he
          simp only [decide_eq_true_eq]
          intro hcon
          exact hpost p hp (by rw [hns] at hcon; rw [hcon])
        rw [hdel, hper, hrest, List.append_nil]
    · intro hcode
      have ht1 : Core.processSubResponse dec n sr st0 = (st0, [], []) := by
        simp only [Core.processSubResponse, if_pos hcode]
      constructor
      · simp only [Core.pollIteration, ht1]
        exact pollIteration_get_other dec post (Core.cursorKey n) st0
          (fun p hp => (hpost p hp).symm)
      · simp only [Core.pollIteration, ht1, List.nil_append]
        rw [List.filter_eq_nil_iff]
        intro e he
        obtain ⟨p, hp, hns⟩ := pollIteration_events_ns dec post _ e he
        simp only [decide_eq_true_eq]
        intro hcon
        exact hpost p hp (by rw [hns] at hcon; rw [hcon])
  | cons q pre2 ih =>
    obtain ⟨m, srq⟩ := q
    intro st0 hpre hpost
    have hm : Core.cursorKey m ≠ Core.cursorKey n :=
      hpre (m, srq) (List.mem_cons_self _ _)
    have hpre2 : ∀ p ∈ pre2, Core.cursorKey p.1 ≠ Core.cursorKey n :=
      fun p hp => hpre p (List.mem_cons_of_mem _ hp)
    simp only [List.cons_append, Core.pollIteration]
    obtain ⟨ihA, ihB⟩ := ih (Core.processSubResponse dec m srq st0).1 hpre2 hpost
    have hqevs : ((Core.processSubResponse dec m srq st0).2.1).filter
        (fun e => Core.pollEventNs e = n) = [] := by
      rw [List.filter_eq_nil_iff]
      intro e he
      have := processSub_events_ns dec m srq st0 e he
      simp only [decide_eq_true_eq]
      intro hcon
      exact hm (by rw [← this, hcon])
    constructor
    · intro lm hcode hlast
      obtain ⟨hget, hevs⟩ := ihA lm hcode hlast
      refine ⟨hget, ?_⟩
      rw [List.filter_append, hqevs, List.nil_append]
      exact hevs
    · intro hcode
      obtain ⟨hget, hevs⟩ := ihB hcode
      constructor
      · exact hget.trans (processSub_get_other dec m srq st0 (Core.cursorKey n) hm.symm)
      · rw [List.filter_append, hqevs, List.nil_append]
        exact hevs

theorem pairKeyNe (a b : Int) (sr : Core.SubResponse)
    (h : Core.cursorKey a ≠ Core.cursorKey b) :
    Core.cursorKey (a, sr).1 ≠ Core.cursorKey b := h

/-- C2: in one poll iteration, for every namespace whose sub-response has
code 200 and at least one raw message, the cursor last_hash_n is set to the
hash of the last raw message, and in the event trace that persist comes after
all deliveries of that namespace, which happen in order and consist exactly
of the messages that decrypted successfully (failures are dropped without
aborting the iteration and without blocking the cursor advance); a namespace
whose sub-response has a non-200 code keeps its cursor and delivers
nothing. -/
theorem c2_poller_cursor {α : Type} (dec : Core.RawMessage → Option α)
    (st0 : List (String × String)) (sr0 sr2 sr3 sr5 sr4 : Core.SubResponse) :
    nsCursorSpec dec st0 (Core.poll dec [sr0, sr2, sr3, sr5, sr4] st0).1
        (Core.poll dec [sr0, sr2, sr3, sr5, sr4] st0).2.1 0 sr0 ∧
      nsCursorSpec dec st0 (Core.poll dec [sr0, sr2, sr3, sr5, sr4] st0).1
        (Core.poll dec [sr0, sr2, sr3, sr5, sr4] st0).2.1 2 sr2 ∧
      nsCursorSpec dec st0 (Core.poll dec [sr0, sr2, sr3, sr5, sr4] st0).1
        (Core.poll dec [sr0, sr2, sr3, sr5, sr4] st0).2.1 3 sr3 ∧
      nsCursorSpec dec st0 (Core.poll dec [sr0, sr2, sr3, sr5, sr4] st0).1
        (Core.poll dec [sr0, sr2, sr3, sr5, sr4] st0).2.1 5 sr5 ∧
      nsCursorSpec dec st0 (Core.poll dec [sr0, sr2, sr3, sr5, sr4] st0).1
        (Core.poll dec [sr0, sr2, sr3, sr5, sr4] st0).2.1 4 sr4 := by
  refine ⟨?_, ?_, ?_, ?_, ?_⟩
  · exact pollIteration_cursor_spec dec [] 0 sr0 [(2, sr2), (3, sr3), (5, sr5), (4, sr4)]
      st0 (by intro p hp; simp at hp)
      (by intro p hp; simp at hp; rcases hp with rfl | rfl | rfl | rfl <;> exact pairKeyNe _ _ _ (by decide))
  · exact pollIteration_cursor_spec dec [(0, sr0)] 2 sr2 [(3, sr3), (5, sr5), (4, sr4)]
      st0 (by intro p hp; simp at hp; rcases hp with rfl <;> exact pairKeyNe _ _ _ (by decide))
      (by intro p hp; simp at hp; rcases hp with rfl | rfl | rfl <;> exact pairKeyNe _ _ _ (by decide))
  · exact pollIteration_cursor_spec dec [(0, sr0), (2, sr2)] 3 sr3 [(5, sr5), (4, sr4)]
      st0 (by intro p hp; simp at hp; rcases hp with rfl | rfl <;> exact pairKeyNe _ _ _ (by decide))
      (by intro p hp; simp at hp; rcases hp with rfl | rfl <;> exact pairKeyNe _ _ _ (by decide))
  · exact pollIteration_cursor_spec dec [(0, sr0), (2, sr2), (3, sr3)] 5 sr5 [(4, sr4)]
      st0 (by intro p hp; simp at hp; rcases hp with rfl | rfl | rfl <;> exact pairKeyNe _ _ _ (by decide))
      (by intro p hp; simp at hp; rcases hp with rfl <;> exact pairKeyNe _ _ _ (by decide))
  · exact pollIteration_cursor_spec dec [(0, sr0), (2, sr2), (3, sr3), (5, sr5)] 4 sr4 []
      st0 (by intro p hp; simp at hp; rcases hp with rfl | rfl | rfl | rfl <;> exact pairKeyNe _ _ _ (by decide))
      (by intro p hp; simp at hp)

/-- Decrypt oracle for the concrete poll fixtures: the message whose data
field is bad fails to decrypt, everything else decodes to the payload 1. -/
def c2dec : Core.RawMessage → Option Nat :=
  fun m => if m.data = "bad" then none else some 1

def c2sr0 : Core.SubResponse :=
  { code := 200,
    messages := [{ data := "good", hash := "h1", pubkey := "p1" },
                 { data := "bad", hash := "h2", pubkey := "p2" }] }

def c2srErr : Core.SubResponse := { code := 500, messages := [] }

def c2srEmpty : Core.SubResponse := { code := 200, messages := [] }

/-- C2 witness: the per-namespace contract instantiated at a concrete batch
with one good and one undecryptable message in namespace 0, a failing
sub-response for namespace 2 and empty 200 responses elsewhere. -/
theorem c2_poller_cursor_witness :
    nsCursorSpec c2dec [("last_hash_2", "old")]
        (Core.poll c2dec [c2sr0, c2srErr, c2srEmpty, c2srEmpty, c2srEmpty]
          [("last_hash_2", "old")]).1
        (Core.poll c2dec [c2sr0, c2srErr, c2srEmpty, c2srEmpty, c2srEmpty]
          [("last_hash_2", "old")]).2.1 0 c2sr0 ∧
      nsCursorSpec c2dec [("last_hash_2", "old")]
        (Core.poll c2dec [c2sr0, c2srErr, c2srEmpty, c2srEmpty, c2srEmpty]
          [("last_hash_2", "old")]).1
        (Core.poll c2dec [c2sr0, c2srErr, c2srEmpty, c2srEmpty, c2srEmpty]
          [("last_hash_2", "old")]).2.1 2 c2srErr ∧
      nsCursorSpec c2dec [("last_hash_2", "old")]
        (Core.poll c2dec [c2sr0, c2srErr, c2srEmpty, c2srEmpty, c2srEmpty]
          [("last_hash_2", "old")]).1
        (Core.poll c2dec [c2sr0, c2srErr, c2srEmpty, c2srEmpty, c2srEmpty]
          [("last_hash_2", "old")]).2.1 3 c2srEmpty ∧
      nsCursorSpec c2dec [("last_hash_2", "old")]
        (Core.poll c2dec [c2sr0, c2srErr, c2srEmpty, c2srEmpty, c2srEmpty]
          [("last_hash_2", "old")]).1
        (Core.poll c2dec [c2sr0, c2srErr, c2srEmpty, c2srEmpty, c2srEmpty]
          [("last_hash_2", "old")]).2.1 5 c2srEmpty ∧
      nsCursorSpec c2dec [("last_hash_2", "old")]
        (Core.poll c2dec [c2sr0, c2srErr, c2srEmpty, c2srEmpty, c2srEmpty]
          [("last_hash_2", "old")]).1
        (Core.poll c2dec [c2sr0, c2srErr, c2srEmpty, c2srEmpty, c2srEmpty]
          [("last_hash_2", "old")]).2.1 4 c2srEmpty :=
  c2_poller_cursor c2dec [("last_hash_2", "old")] c2sr0 c2srErr c2srEmpty c2srEmpty c2srEmpty

/-- Sanity evaluation of the poll embedding on the concrete batch: the cursor
of namespace 0 advances to h2 (the hash of the last raw message) even though
that message failed to decrypt, the cursor of the failing namespace 2 is
untouched, and the trace delivers the good message before persisting. -/
theorem poll_concrete_eval :
    Core.storageGet (Core.poll c2dec [c2sr0, c2srErr, c2srEmpty, c2srEmpty, c2srEmpty]
        [("last_hash_2", "old")]).1 "last_hash_0" = some "h2" ∧
      Core.storageGet (Core.poll c2dec [c2sr0, c2srErr, c2srEmpty, c2srEmpty, c2srEmpty]
        [("last_hash_2", "old")]).1 "last_hash_2" = some "old" ∧
      (Core.poll c2dec [c2sr0, c2srErr, c2srEmpty, c2srEmpty, c2srEmpty]
        [("last_hash_2", "old")]).2.1
        = [Core.PollEvent.deliver 0 { payload := 1, author_session_id := "p1" },
           Core.PollEvent.persist 0 "h2"] := by
  refine ⟨by decide, by decide, by decide⟩
